import Mathlib

/-!
Verification of the actions-server escrow core: a shallow embedding of the
binary encoder, amount codec, deal-identifier utilities, instruction payload
builders, and the confirm / fund state-transition logic, together with
theorems settling the specification claims about them.

Conventions of the embedding:
* JS `bigint` arithmetic is modelled by `Int`; `>> 8n` is floor division and
  `& 0xffn` is the nonnegative remainder, which are exactly `Int`'s `/` and `%`.
* Node `Buffer`s are `List Nat` (byte values).
* Throwing code is modelled with `Except String`.
* The Prisma transaction in `handleConfirm` is modelled by a pure function on
  an explicit database state; an error result means the transaction rolled
  back, so the pre-state is kept (`confirmRun`).
* `sha256` (Node `crypto`) is an external primitive: functions that use it
  take the digest function as an explicit argument; theorems only need that a
  digest is 32 bytes long.
-/

/-! ## Binary encoder (`src/solana/anchor.ts`: `writeUIntLE`, `writeIntLE`) -/

/-- Embedding of `writeUIntLE(value, size)`: byte `i` is `(value >> 8i) & 0xff` in JS
`bigint` arithmetic, i.e. floor division and nonnegative remainder. -/
def writeUIntLE (value : Int) (size : Nat) : List Nat :=
  (List.range size).map (fun i => ((value / ((2 : Int) ^ (8 * i))) % 256).toNat)

/-- Embedding of `writeIntLE(value, size)`: two's complement — negative values are shifted
up by `2^(8*size)` first, then encoded like `writeUIntLE`. -/
def writeIntLE (value : Int) (size : Nat) : List Nat :=
  let max : Int := 2 ^ (8 * size)
  let temp : Int := if value < 0 then max + value else value
  (List.range size).map (fun i => ((temp / ((2 : Int) ^ (8 * i))) % 256).toNat)

/-- Embedding of `u16ToBuffer(value) = writeUIntLE(BigInt(value), 2)`. -/
def u16ToBuffer (value : Nat) : List Nat := writeUIntLE (value : Int) 2

/-- Embedding of `u64ToBuffer(value) = writeUIntLE(value, 8)`. -/
def u64ToBuffer (value : Int) : List Nat := writeUIntLE value 8

/-- Embedding of `i64ToBuffer(value) = writeIntLE(value, 8)`. -/
def i64ToBuffer (value : Int) : List Nat := writeIntLE value 8

/-- Little-endian value of a byte list (used to state what an encoding means). -/
def leBytesToInt (l : List Nat) : Int :=
  l.foldr (fun b acc => (b : Int) + 256 * acc) 0

/-! ## Deal identifier utilities (`src/utils/deal.ts`: `dealIdToBytes`) -/

/-- Value of a hexadecimal digit character, `none` for a non-hex character. -/
def hexNibble? (c : Char) : Option Nat :=
  if 48 ≤ c.toNat ∧ c.toNat ≤ 57 then some (c.toNat - 48)
  else if 97 ≤ c.toNat ∧ c.toNat ≤ 102 then some (c.toNat - 87)
  else if 65 ≤ c.toNat ∧ c.toNat ≤ 70 then some (c.toNat - 55)
  else none

/-- Node's `Buffer.from(str, "hex")`: decodes two characters per byte from the
left and stops (without error) at the first pair containing a non-hex
character or at a trailing odd character. -/
def bufferFromHex : List Char → List Nat
  | c1 :: c2 :: rest =>
    match hexNibble? c1, hexNibble? c2 with
    | some h, some l => (16 * h + l) :: bufferFromHex rest
    | _, _ => []
  | _ => []

/-- The global hyphen-removing replace applied to a dealId string. -/
def stripHyphens (s : String) : List Char := s.data.filter (fun c => c ≠ '-')

/-- Embedding of `dealIdToBytes`: strips hyphens, requires exactly 32 remaining characters,
then hex-decodes with Node semantics. -/
def dealIdToBytes (dealId : String) : Except String (List Nat) :=
  let hex := stripHyphens dealId
  if hex.length ≠ 32 then .error "dealId must be 16 bytes"
  else .ok (bufferFromHex hex)

/-- A dealId string whose 32 non-hyphen characters are all valid hex digits. -/
def isCanonicalDealId (dealId : String) : Bool :=
  (stripHyphens dealId).length == 32 &&
    (stripHyphens dealId).all (fun c => (hexNibble? c).isSome)

/-! ## Amount codec (`src/utils/amount.ts`) -/

/-- A decimal digit character `0`–`9`. -/
def isDigitChar (c : Char) : Bool := 48 ≤ c.toNat && c.toNat ≤ 57

/-- Whitespace removed by `String.prototype.trim`. -/
def isJsWs (c : Char) : Bool := c == ' ' || c == '\t' || c == '\n' || c == '\r'

/-- Embedding of `amount.trim()`. -/
def trimChars (l : List Char) : List Char :=
  ((l.dropWhile isJsWs).reverse.dropWhile isJsWs).reverse

/-- The regex `^\d+(\.\d{1,6})?$` from `parseAmountToUnits`, expressed via the
same `split(".")` decomposition the function itself uses. -/
def amountFormatOk (t : List Char) : Bool :=
  match t.splitOn '.' with
  | [w] => !w.isEmpty && w.all isDigitChar
  | [w, f] =>
    !w.isEmpty && w.all isDigitChar && !f.isEmpty && f.length ≤ 6 && f.all isDigitChar
  | _ => false

/-- Value of a decimal digit string (JS `BigInt` of the string). -/
def digitsToNat (l : List Char) : Nat :=
  l.foldl (fun a c => 10 * a + (c.toNat - 48)) 0

/-- Embedding of `parseAmountToUnits` (string input): trim, regex check, split at the dot,
right-pad the fraction to 6 digits, and scale by `10^6`. -/
def parseAmountToUnits (amount : String) : Except String Nat :=
  let t := trimChars amount.data
  if amountFormatOk t then
    let parts := t.splitOn '.'
    let whole := parts.headD []
    let fraction := (parts.drop 1).headD []
    let fractionPadded := (fraction ++ List.replicate 6 '0').take 6
    .ok (digitsToNat whole * 1000000 + digitsToNat fractionPadded)
  else .error "Amount must be a numeric string with up to 6 decimals"

/-- The character for decimal digit `d` (JS number-to-string digits). -/
def decDigitChar (d : Nat) : Char := Char.ofNat (48 + d)

/-- Decimal string of a natural number, as produced by JS `${bigint}`. -/
def natToDecChars (n : Nat) : List Char :=
  if _h : n < 10 then [decDigitChar n]
  else natToDecChars (n / 10) ++ [decDigitChar (n % 10)]
  decreasing_by exact Nat.div_lt_self (by omega) (by omega)

/-- Embedding of `frac.toString().padStart(6, "0")`. -/
def padStart6 (l : List Char) : List Char := List.replicate (6 - l.length) '0' ++ l

/-- Embedding of `formatUnitsToDecimal(units)`. -/
def formatUnitsToDecimal (units : Nat) : String :=
  ⟨natToDecChars (units / 1000000) ++ '.' :: padStart6 (natToDecChars (units % 1000000))⟩

/-- The canonical form named by the amount round-trip claim: the *same*
integer part, with the fractional part zero-padded to exactly 6 digits. -/
def specCanonicalAmount (t : List Char) : List Char :=
  match t.splitOn '.' with
  | [w] => w ++ '.' :: List.replicate 6 '0'
  | [w, f] => w ++ '.' :: (f ++ List.replicate (6 - f.length) '0')
  | _ => []

/-- A digit string with its leading zeros removed (`"0"` if it was all zeros):
the shape JS number formatting actually produces. -/
def stripLeadingZeros (l : List Char) : List Char :=
  match l.dropWhile (fun c => c == '0') with
  | [] => ['0']
  | l' => l'

/-- The canonical form the code actually round-trips to: leading zeros of the
integer part are dropped, fractional part zero-padded to exactly 6 digits. -/
def normalizedCanonicalAmount (t : List Char) : List Char :=
  match t.splitOn '.' with
  | [w] => stripLeadingZeros w ++ '.' :: List.replicate 6 '0'
  | [w, f] => stripLeadingZeros w ++ '.' :: (f ++ List.replicate (6 - f.length) '0')
  | _ => []

/-! ## Instruction payloads (`handleInitiate`, `handleFund`, `handleRelease`,
`handleRefund`, `EscrowService.openDispute`, `EscrowService.resolve`) -/

/-- Embedding of `getInstructionDiscriminator(name)`: the first 8 bytes of
`sha256("global:" + name)`; the digest primitive is passed in explicitly. -/
def getInstructionDiscriminator (sha256 : String → List Nat) (name : String) : List Nat :=
  (sha256 ("global:" ++ name)).take 8

/-- The PDA-seeds scheme selected per deployment (`ESCROW_PDA_SEEDS`). -/
inductive PdaScheme
  | deal_id
  | parties
deriving DecidableEq, Repr

/-- Embedding of `handleInitiate` instruction data: discriminator, u64 amount, u16 feeBps,
i64 disputeAt, and (dealId scheme only) the 16 dealId bytes, with the
handler's explicit 26/42-byte length check. -/
def initiateInstructionData (sha256 : String → List Nat) (scheme : PdaScheme)
    (amountUnits : Int) (feeBps : Nat) (disputeAt : Int) (dealId : String) :
    Except String (List Nat) :=
  match dealIdToBytes dealId with
  | .error e => .error e
  | .ok dealIdBytes =>
    let discriminator := getInstructionDiscriminator sha256 "initiate"
    let data :=
      match scheme with
      | .parties =>
        discriminator ++ u64ToBuffer amountUnits ++ u16ToBuffer feeBps ++ i64ToBuffer disputeAt
      | .deal_id =>
        discriminator ++ u64ToBuffer amountUnits ++ u16ToBuffer feeBps ++ i64ToBuffer disputeAt
          ++ dealIdBytes
    let expectedLen : Nat := match scheme with | .parties => 26 | .deal_id => 42
    if data.length ≠ expectedLen then
      .error "Instruction data length mismatch"
    else .ok data

/-- Embedding of `handleFund` instruction data: `FUND_DISCRIMINATOR ++ dealIdBytes`. -/
def fundInstructionData (sha256 : String → List Nat) (dealId : String) :
    Except String (List Nat) :=
  match dealIdToBytes dealId with
  | .error e => .error e
  | .ok b => .ok (getInstructionDiscriminator sha256 "fund" ++ b)

/-- Embedding of `handleRelease` instruction data: `RELEASE_DISCRIMINATOR ++ dealIdBytes`. -/
def releaseInstructionData (sha256 : String → List Nat) (dealId : String) :
    Except String (List Nat) :=
  match dealIdToBytes dealId with
  | .error e => .error e
  | .ok b => .ok (getInstructionDiscriminator sha256 "release" ++ b)

/-- Embedding of `handleRefund` instruction data: `REFUND_DISCRIMINATOR ++ dealIdBytes`. -/
def refundInstructionData (sha256 : String → List Nat) (dealId : String) :
    Except String (List Nat) :=
  match dealIdToBytes dealId with
  | .error e => .error e
  | .ok b => .ok (getInstructionDiscriminator sha256 "refund" ++ b)

/-- Embedding of `EscrowService.openDispute` instruction data: the discriminator alone. -/
def openDisputeInstructionData (sha256 : String → List Nat) : List Nat :=
  getInstructionDiscriminator sha256 "open_dispute"

/-- Embedding of `EscrowService.resolve` instruction data:
`RESOLVE_DISCRIMINATOR ++ Buffer.from([verdictU8])`. -/
def resolveInstructionData (sha256 : String → List Nat) (verdictU8 : Nat) : List Nat :=
  getInstructionDiscriminator sha256 "resolve" ++ [verdictU8 % 256]

/-! ## Deal store model (Prisma `Deal`, `OnchainEvent`, `ResolveTicket`) -/

/-- The deal lifecycle states of the Prisma `DealStatus` enum. -/
inductive DealStatus
  | INIT
  | FUNDED
  | DISPUTED
  | RESOLVED
  | RELEASED
  | REFUNDED
deriving DecidableEq, Repr

/-- The fields of a stored deal that the confirm / fund logic reads or
writes.  Nullable columns are `Option`s; timestamps are abstract `Nat`s. -/
structure Deal where
  id : String
  status : DealStatus
  buyerWallet : Option String
  sellerWallet : Option String
  arbiterPubkey : Option String
  depositTokenMint : Option String
  fundedAt : Option Nat
  updatedAt : Nat
deriving DecidableEq, Repr

/-- An `onchain_events` row as created by the confirm / fund paths. -/
structure OnchainEvent where
  dealId : String
  txSig : String
  slot : Nat
  instruction : String
deriving DecidableEq, Repr

/-- A `resolve_tickets` row (external arbitration verdict). -/
structure ResolveTicket where
  dealId : String
  finalAction : String
  issuedAt : Nat
deriving DecidableEq, Repr

/-- The relational store visible to the escrow core. -/
structure EscrowDB where
  deals : List Deal
  events : List OnchainEvent
  tickets : List ResolveTicket
deriving DecidableEq, Repr

/-- Embedding of `findUnique({ where: { id } })` on deals. -/
def findDeal (db : EscrowDB) (id : String) : Option Deal :=
  db.deals.find? (fun d => d.id == id)

/-- Embedding of `deal.update({ where: { id } })`: replaces the stored record with `u`. -/
def updateDeal (db : EscrowDB) (id : String) (u : Deal) : EscrowDB :=
  { db with deals := db.deals.map (fun d => if d.id == id then u else d) }

/-- Embedding of `resolveTicket.findFirst({ where: { dealId }, orderBy: { issuedAt: "desc" } })`:
the first ticket for the deal with maximal `issuedAt`. -/
def latestTicket (db : EscrowDB) (dealId : String) : Option ResolveTicket :=
  (db.tickets.filter (fun t => t.dealId == dealId)).foldl
    (fun best t =>
      match best with
      | none => some t
      | some b => if t.issuedAt > b.issuedAt then some t else some b)
    none

/-! ## `handleConfirm` (`src/services/escrow/handlers/confirm.handler.ts`) -/

/-- The body of a `POST /actions/confirm` request. -/
structure ConfirmInput where
  dealId : String
  txSig : String
  actorWallet : String
  action : String
deriving DecidableEq, Repr

/-- What the chain reports for a submitted signature. -/
structure SigStatus where
  err : Bool
  slot : Nat
deriving DecidableEq, Repr

/-- A base58 character (the bs58 alphabet). -/
def isBase58Char (c : Char) : Bool :=
  (49 ≤ c.toNat && c.toNat ≤ 57) || (65 ≤ c.toNat && c.toNat ≤ 72) ||
  (74 ≤ c.toNat && c.toNat ≤ 78) || (80 ≤ c.toNat && c.toNat ≤ 90) ||
  (97 ≤ c.toNat && c.toNat ≤ 107) || (109 ≤ c.toNat && c.toNat ≤ 122)

/-- Embedding of `isBase58Address`: 32–44 characters of the base58 alphabet. -/
def isBase58Address (addr : String) : Bool :=
  32 ≤ addr.length && addr.length ≤ 44 && addr.data.all isBase58Char

/-- The reserved sentinel recognised by `handleConfirm`: 32 leading `'1'`s. -/
def mockSigStart : List Char := List.replicate 32 '1'

/-- Embedding of `txSig.startsWith("11111111111111111111111111111111")` — note there is no
mode or environment flag anywhere in this decision. -/
def isMockSignature (txSig : String) : Bool :=
  mockSigStart.isPrefixOf txSig.data

/-- The pre-transaction signature check of `handleConfirm`: skipped entirely
for a mock signature (slot `0`), otherwise the chain must report the
signature as found and unfailed. -/
def confirmSlot (chain : String → Option SigStatus) (txSig : String) : Except String Nat :=
  if ¬ isMockSignature txSig then
    match chain txSig with
    | none => .error "Transaction not found"
    | some st => if st.err then .error "Transaction failed" else .ok st.slot
  else .ok 0

/-- The expected-actor computation of `handleConfirm` (nullable wallet
columns compare like JS `null !== wallet`). -/
def expectedWalletFor (deal : Deal) (input : ConfirmInput) : Except String (Option String) :=
  if input.action = "FUND" ∨ input.action = "RELEASE" then .ok deal.buyerWallet
  else if input.action = "REFUND" then .ok deal.sellerWallet
  else if input.action = "OPEN_DISPUTE" then
    if some input.actorWallet ≠ deal.buyerWallet ∧ some input.actorWallet ≠ deal.sellerWallet then
      .error "Actor wallet must be buyer or seller"
    else .ok (some input.actorWallet)
  else if input.action = "RESOLVE" then .ok deal.arbiterPubkey
  else .ok deal.sellerWallet

/-- The transition switch of `handleConfirm`: status preconditions per
action; `INITIATE` (the `default` case) keeps the current status. -/
def nextStatusFor (db : EscrowDB) (deal : Deal) (input : ConfirmInput) :
    Except String DealStatus :=
  if input.action = "FUND" then
    if deal.status ≠ DealStatus.INIT then .error "Invalid transition"
    else .ok DealStatus.FUNDED
  else if input.action = "RELEASE" then
    if ¬ (deal.status = DealStatus.FUNDED ∨ deal.status = DealStatus.RESOLVED) then
      .error "Invalid transition"
    else .ok DealStatus.RELEASED
  else if input.action = "REFUND" then
    if ¬ (deal.status = DealStatus.FUNDED ∨ deal.status = DealStatus.RESOLVED) then
      .error "Invalid transition"
    else .ok DealStatus.REFUNDED
  else if input.action = "OPEN_DISPUTE" then
    if deal.status ≠ DealStatus.FUNDED then
      .error "Invalid transition: can only dispute FUNDED deals"
    else .ok DealStatus.DISPUTED
  else if input.action = "RESOLVE" then
    if deal.status ≠ DealStatus.DISPUTED ∧ deal.status ≠ DealStatus.FUNDED then
      .error "Invalid transition: can only resolve DISPUTED or FUNDED deals"
    else
      match latestTicket db deal.id with
      | none => .error "No resolution ticket found"
      | some ticket =>
        if ticket.finalAction = "RELEASE" then .ok DealStatus.RELEASED
        else if ticket.finalAction = "REFUND" then .ok DealStatus.REFUNDED
        else .error ("Unsupported verdict: " ++ ticket.finalAction)
  else .ok deal.status

/-- The two writes of the confirm transaction: the `onchainEvent.create` and
the `deal.update` (status, fundedAt only when the new status is FUNDED,
updatedAt), performed together. -/
def confirmCommit (db : EscrowDB) (deal : Deal) (input : ConfirmInput)
    (now slot : Nat) (nextStatus : DealStatus) : EscrowDB × Deal :=
  let updated : Deal :=
    { deal with
      status := nextStatus
      fundedAt := if nextStatus = DealStatus.FUNDED then some now else deal.fundedAt
      updatedAt := now }
  let db1 : EscrowDB :=
    { db with events := db.events ++ [⟨deal.id, input.txSig, slot, input.action⟩] }
  (updateDeal db1 deal.id updated, updated)

/-- The `prisma.$transaction` body of `handleConfirm`: load the deal, check
the actor wallet, compute the next status, then append the event and update
the deal.  An error means the transaction rolls back. -/
def confirmTx (db : EscrowDB) (input : ConfirmInput) (now slot : Nat) :
    Except String (EscrowDB × Deal) :=
  match findDeal db input.dealId with
  | none => .error "Deal not found"
  | some deal =>
    match expectedWalletFor deal input with
    | .error e => .error e
    | .ok expectedWallet =>
      if expectedWallet ≠ some input.actorWallet then .error "Actor wallet mismatch"
      else
        match nextStatusFor db deal input with
        | .error e => .error e
        | .ok nextStatus => .ok (confirmCommit db deal input now slot nextStatus)

/-- Embedding of `handleConfirm`: actor-wallet validation, the (possibly skipped)
signature check, then the database transaction. -/
def handleConfirm (chain : String → Option SigStatus) (db : EscrowDB)
    (input : ConfirmInput) (now : Nat) : Except String (EscrowDB × Deal) :=
  if ¬ isBase58Address input.actorWallet then .error "Invalid actor wallet"
  else
    match confirmSlot chain input.txSig with
    | .error e => .error e
    | .ok slot => confirmTx db input now slot

/-- The store state after a confirm call: the transaction's result on
success, the unchanged pre-state on any error (rollback). -/
def confirmRun (chain : String → Option SigStatus) (db : EscrowDB)
    (input : ConfirmInput) (now : Nat) : EscrowDB :=
  match handleConfirm chain db input now with
  | .ok (db', _) => db'
  | .error _ => db

/-! ## `EscrowService.fund` skip path (legacy `escrow-service.ts`) -/

/-- The body of a `POST /actions/fund` request (fields the service reads). -/
structure FundInput where
  dealId : String
  buyerWallet : String
  amount : String
deriving DecidableEq, Repr

/-- The 100-character mock signature constant used by the fund skip path. -/
def mockSignature : String := ⟨List.replicate 100 '1'⟩

/-- Embedding of `EscrowService.fund` after validation: derives the escrow PDA twice from
the same seeds, fetches the on-chain account, and — when the PDA comparison
fails or the account is missing — skips the transaction build and instead
marks the deal FUNDED in the store and appends a mock-signature FUND event.
On the normal path it only builds the unsigned transaction (no store write).
`derivePda` abstracts `PublicKey.findProgramAddressSync`; `accountExists`
is the chain's answer to `getAccountInfo(escrowPda)`. -/
def escrowServiceFund (derivePda : List (List Nat) → String) (accountExists : Bool)
    (db : EscrowDB) (input : FundInput) (now : Nat) : Except String EscrowDB :=
  match findDeal db input.dealId with
  | none => .error "Deal not found"
  | some deal =>
    if deal.status ≠ DealStatus.INIT then .error "Deal status cannot be funded"
    else if deal.buyerWallet ≠ some input.buyerWallet then
      .error "Caller wallet does not match buyer"
    else if deal.sellerWallet = none ∨ deal.buyerWallet = none then
      .error "Deal is missing buyer or seller wallet"
    else if deal.depositTokenMint = none then .error "Deal is missing deposit token mint"
    else
      match parseAmountToUnits input.amount with
      | .error e => .error e
      | .ok _amountUnits =>
        match dealIdToBytes deal.id with
        | .error e => .error e
        | .ok dealIdBytes =>
          let escrowSeed : List Nat := [101, 115, 99, 114, 111, 119]
          let escrowPda := derivePda [escrowSeed, dealIdBytes]
          let verifiedPda := derivePda [escrowSeed, dealIdBytes]
          let pdaMatches := escrowPda == verifiedPda
          if ¬ pdaMatches ∨ ¬ accountExists then
            let updated : Deal :=
              { deal with
                status := DealStatus.FUNDED
                fundedAt := some now
                updatedAt := now }
            let db1 := updateDeal db deal.id updated
            .ok { db1 with
                  events := db1.events ++ [⟨deal.id, mockSignature, 0, "FUND"⟩] }
          else .ok db

/-! ## Concrete fixtures used by closed theorems and witnesses -/

/-- A 32-character base58 wallet string (buyer in the fixtures). -/
def walletA : String := ⟨List.replicate 32 'A'⟩

/-- A 32-character base58 wallet string (seller in the fixtures). -/
def walletB : String := ⟨List.replicate 32 'B'⟩

/-- The all-zero canonical dealId string. -/
def dealId0 : String := "00000000-0000-0000-0000-000000000000"

/-- An INIT deal: buyer `walletA`, seller `walletB`. -/
def dealInitA : Deal :=
  ⟨dealId0, DealStatus.INIT, some walletA, some walletB, none, some "mint", none, 0⟩

/-- A store holding only `dealInitA`. -/
def dbInitA : EscrowDB := ⟨[dealInitA], [], []⟩

/-- A RELEASED deal with the same parties. -/
def dealReleasedA : Deal :=
  ⟨dealId0, DealStatus.RELEASED, some walletA, some walletB, none, some "mint", some 2, 0⟩

/-- A store holding only `dealReleasedA`. -/
def dbReleasedA : EscrowDB := ⟨[dealReleasedA], [], []⟩

/-- A FUNDED deal whose `fundedAt` is already set (to 5). -/
def dealFundedA : Deal :=
  ⟨dealId0, DealStatus.FUNDED, some walletA, some walletB, none, some "mint", some 5, 0⟩

/-- A store holding only `dealFundedA`. -/
def dbFundedA : EscrowDB := ⟨[dealFundedA], [], []⟩

/-- An empty store. -/
def dbEmpty : EscrowDB := ⟨[], [], []⟩

/-- A chain that reports every signature as confirmed at slot 3. -/
def chainOk : String → Option SigStatus := fun _ => some ⟨false, 3⟩

/-- A chain that knows no signature at all. -/
def chainNone : String → Option SigStatus := fun _ => none

/-- A confirm input: FUND by the buyer using the mock sentinel signature. -/
def inputMockFund : ConfirmInput := ⟨dealId0, mockSignature, walletA, "FUND"⟩

/-- A confirm input: FUND by the buyer with an ordinary signature. -/
def inputFundSigA : ConfirmInput := ⟨dealId0, "sigA", walletA, "FUND"⟩

/-- A confirm input: INITIATE by the seller with an ordinary signature. -/
def inputInitiateSigA : ConfirmInput := ⟨dealId0, "sigA", walletB, "INITIATE"⟩

/-- A fund request matching `dealInitA`. -/
def fundInputA : FundInput := ⟨dealId0, walletA, "1.5"⟩

/-- A constant PDA-derivation function for closed evaluations. -/
def pdaConst : List (List Nat) → String := fun _ => "PDA"

/-- A fixed 32-byte digest function for witnesses (only its length is used). -/
def sha0 : String → List Nat := fun _ => List.replicate 32 0

/-- The deal produced by confirming INITIATE on `dealFundedA` at time 7. -/
def dealFundedA' : Deal :=
  { dealFundedA with fundedAt := some 7, updatedAt := 7 }

/-- Fixture: `dealInitA` marked FUNDED at time 7. -/
def dealInitFunded : Deal :=
  { dealInitA with status := DealStatus.FUNDED, fundedAt := some 7, updatedAt := 7 }

/-- The store after the mock-signature FUND confirm on `dbInitA` at time 7. -/
def dbInitFunded : EscrowDB :=
  ⟨[dealInitFunded], [⟨dealId0, mockSignature, 0, "FUND"⟩], []⟩

/-- The store produced by confirming INITIATE on `dbFundedA` at time 7. -/
def dbFundedA' : EscrowDB :=
  ⟨[dealFundedA'], [⟨dealId0, "sigA", 3, "INITIATE"⟩], []⟩

/-! ## Helper lemmas: binary encoder -/

theorem length_writeUIntLE (value : Int) (size : Nat) :
    (writeUIntLE value size).length = size := by
  simp [writeUIntLE]

theorem writeUIntLE_succ_last (value : Int) (n : Nat) :
    writeUIntLE value (n + 1)
      = writeUIntLE value n ++ [((value / ((2 : Int) ^ (8 * n))) % 256).toNat] := by
  simp [writeUIntLE, List.range_succ]

theorem leBytesToInt_cons (a : Nat) (t : List Nat) :
    leBytesToInt (a :: t) = (a : Int) + 256 * leBytesToInt t := rfl

theorem leBytesToInt_append_singleton (l : List Nat) (b : Nat) :
    leBytesToInt (l ++ [b]) = leBytesToInt l + 256 ^ l.length * (b : Int) := by
  induction l with
  | nil =>
    show (b : Int) + 256 * 0 = 0 + 1 * (b : Int)
    ring
  | cons a t ih =>
    show leBytesToInt (a :: (t ++ [b]))
        = leBytesToInt (a :: t) + 256 ^ (a :: t).length * (b : Int)
    rw [leBytesToInt_cons, leBytesToInt_cons, ih, List.length_cons]
    ring

theorem int_emod_mul_decomp (v A B : Int) (hA : 0 < A) (hB : 0 < B) :
    v % (A * B) = v % A + A * ((v / A) % B) := by
  have h1 : A * (v / A) + v % A = v := Int.ediv_add_emod v A
  have h2 : B * (v / A / B) + (v / A) % B = v / A := Int.ediv_add_emod (v / A) B
  have hr0 : 0 ≤ v % A := Int.emod_nonneg v (by omega)
  have hr1 : v % A < A := Int.emod_lt_of_pos v hA
  have hq0 : 0 ≤ (v / A) % B := Int.emod_nonneg (v / A) (by omega)
  have hq1 : (v / A) % B < B := Int.emod_lt_of_pos (v / A) hB
  have key : v - (v % A + A * ((v / A) % B)) = A * B * (v / A / B) := by
    linear_combination (-1 : Int) * h1 - A * h2
  have hsub : (v - (v % A + A * ((v / A) % B))) % (A * B) = 0 := by
    rw [key]
    exact Int.mul_emod_right _ _
  have heq : v % (A * B) = (v % A + A * ((v / A) % B)) % (A * B) :=
    Int.emod_eq_emod_iff_emod_sub_eq_zero.mpr hsub
  rw [heq]
  apply Int.emod_eq_of_lt
  · positivity
  · nlinarith

theorem leBytesToInt_writeUIntLE (value : Int) (size : Nat) :
    leBytesToInt (writeUIntLE value size) = value % 2 ^ (8 * size) := by
  induction size with
  | zero => simp [writeUIntLE, leBytesToInt]
  | succ n ih =>
    rw [writeUIntLE_succ_last, leBytesToInt_append_singleton, length_writeUIntLE, ih]
    have hcast : (((value / ((2 : Int) ^ (8 * n))) % 256).toNat : Int)
        = (value / ((2 : Int) ^ (8 * n))) % 256 :=
      Int.toNat_of_nonneg (Int.emod_nonneg _ (by positivity))
    rw [hcast]
    have hpow : ((256 : Int)) ^ n = 2 ^ (8 * n) := by
      rw [show (256 : Int) = 2 ^ 8 by norm_num, ← pow_mul, Nat.mul_comm]
    have hpow2 : ((2 : Int)) ^ (8 * (n + 1)) = 2 ^ (8 * n) * 256 := by
      rw [show 8 * (n + 1) = 8 * n + 8 by ring, pow_add]
      norm_num
    rw [hpow, hpow2,
      int_emod_mul_decomp value (2 ^ (8 * n)) 256 (by positivity) (by norm_num)]

theorem writeIntLE_eq_writeUIntLE (value : Int) (size : Nat) :
    writeIntLE value size
      = writeUIntLE (if value < 0 then 2 ^ (8 * size) + value else value) size := rfl

/-! ## Helper lemmas: hex decoding -/

theorem bufferFromHex_length_of_hex :
    ∀ l : List Char, (∀ c ∈ l, (hexNibble? c).isSome = true) →
      (bufferFromHex l).length = l.length / 2
  | [] => fun _ => by simp [bufferFromHex]
  | [c] => fun _ => by simp [bufferFromHex]
  | c1 :: c2 :: rest => fun h => by
    obtain ⟨a, ha⟩ := Option.isSome_iff_exists.mp (h c1 (by simp))
    obtain ⟨b, hb⟩ := Option.isSome_iff_exists.mp (h c2 (by simp))
    have hr : ∀ c ∈ rest, (hexNibble? c).isSome = true := fun c hc => h c (by simp [hc])
    simp only [bufferFromHex, ha, hb, List.length_cons]
    rw [bufferFromHex_length_of_hex rest hr]
    omega

/-! ## Helper lemmas: decimal digit strings -/

theorem foldl_digits_ge (l : List Char) :
    ∀ a : Nat, a ≤ l.foldl (fun a c => 10 * a + (c.toNat - 48)) a := by
  induction l with
  | nil => intro a; simp
  | cons c t ih =>
    intro a
    rw [List.foldl_cons]
    calc a ≤ 10 * a + (c.toNat - 48) := by omega
      _ ≤ _ := ih _

theorem digitsToNat_append_singleton (l : List Char) (c : Char) :
    digitsToNat (l ++ [c]) = 10 * digitsToNat l + (c.toNat - 48) := by
  unfold digitsToNat
  rw [List.foldl_append]
  rfl

theorem digitsToNat_dropZeros (l : List Char) :
    digitsToNat (l.dropWhile (fun c => c == '0')) = digitsToNat l := by
  induction l with
  | nil => rfl
  | cons c t ih =>
    rw [List.dropWhile_cons]
    by_cases hc : c = '0'
    · subst hc
      rw [if_pos (by simp)]
      rw [ih]
      show digitsToNat t = digitsToNat ('0' :: t)
      rfl
    · rw [if_neg (by simp [hc])]

theorem isDigitChar_bounds {c : Char} (h : isDigitChar c = true) :
    48 ≤ c.toNat ∧ c.toNat ≤ 57 := by
  simpa [isDigitChar, Bool.and_eq_true, decide_eq_true_iff] using h

theorem digitsToNat_pos (x : Char) (t : List Char)
    (hx : isDigitChar x = true) (h0 : x ≠ '0') :
    1 ≤ digitsToNat (x :: t) := by
  unfold digitsToNat
  rw [List.foldl_cons]
  have hb := isDigitChar_bounds hx
  have hne : x.toNat ≠ 48 := by
    intro he
    exact h0 (by rw [← Char.ofNat_toNat x, he])
  calc 1 ≤ 10 * 0 + (x.toNat - 48) := by omega
    _ ≤ _ := foldl_digits_ge t _

theorem decDigitChar_toNat (c : Char) (h48 : 48 ≤ c.toNat) (h57 : c.toNat ≤ 57) :
    decDigitChar (c.toNat - 48) = c := by
  unfold decDigitChar
  rw [show 48 + (c.toNat - 48) = c.toNat by omega]
  exact Char.ofNat_toNat c

theorem natToDecChars_lt10 (n : Nat) (h : n < 10) :
    natToDecChars n = [decDigitChar n] := by
  rw [natToDecChars]
  rw [dif_pos h]

theorem natToDecChars_ge10 (n : Nat) (h : ¬ n < 10) :
    natToDecChars n = natToDecChars (n / 10) ++ [decDigitChar (n % 10)] := by
  conv_lhs => rw [natToDecChars]
  rw [dif_neg h]

theorem natToDecChars_digitsToNat (l : List Char)
    (hd : ∀ c ∈ l, isDigitChar c = true) (hne : l ≠ [])
    (h0 : ∀ x, l.head? = some x → x ≠ '0') :
    natToDecChars (digitsToNat l) = l := by
  induction l using List.reverseRecOn with
  | nil => exact absurd rfl hne
  | append_singleton xs c ih =>
    rw [digitsToNat_append_singleton]
    have hc := isDigitChar_bounds (hd c (by simp))
    cases xs with
    | nil =>
      have hval : 10 * digitsToNat [] + (c.toNat - 48) = c.toNat - 48 := by
        simp [digitsToNat]
      rw [hval, natToDecChars_lt10 _ (by omega), decDigitChar_toNat c hc.1 hc.2]
      rfl
    | cons x xs' =>
      have hxd : isDigitChar x = true := hd x (by simp)
      have hx0 : x ≠ '0' := h0 x (by simp)
      have hpos : 1 ≤ digitsToNat (x :: xs') := digitsToNat_pos x xs' hxd hx0
      have hd9 : c.toNat - 48 ≤ 9 := by omega
      have hge : ¬ (10 * digitsToNat (x :: xs') + (c.toNat - 48) < 10) := by omega
      rw [natToDecChars_ge10 _ hge]
      have hdiv : (10 * digitsToNat (x :: xs') + (c.toNat - 48)) / 10
          = digitsToNat (x :: xs') := by omega
      have hmod : (10 * digitsToNat (x :: xs') + (c.toNat - 48)) % 10
          = c.toNat - 48 := by omega
      rw [hdiv, hmod, decDigitChar_toNat c hc.1 hc.2]
      have hsub2 : ∀ y, y ∈ x :: xs' → y ∈ x :: xs' ++ [c] := by
        intro y hy
        simp [List.mem_cons] at hy ⊢
        tauto
      rw [ih (fun y hy => hd y (hsub2 y hy)) (by simp) (fun y hy => by
        simp at hy
        subst hy
        exact hx0)]

theorem natToDecChars_strip (l : List Char)
    (hd : ∀ c ∈ l, isDigitChar c = true) :
    natToDecChars (digitsToNat l) = stripLeadingZeros l := by
  rw [← digitsToNat_dropZeros l]
  unfold stripLeadingZeros
  cases hdw : l.dropWhile (fun c => c == '0') with
  | nil =>
    show natToDecChars (digitsToNat []) = ['0']
    rw [show digitsToNat [] = 0 from rfl, natToDecChars_lt10 0 (by norm_num)]
    rfl
  | cons x t =>
    show natToDecChars (digitsToNat (x :: t)) = x :: t
    have hsub : ∀ c ∈ x :: t, c ∈ l := by
      intro c hc
      exact (List.dropWhile_sublist (fun c => c == '0')).mem (hdw ▸ hc)
    apply natToDecChars_digitsToNat
    · exact fun c hc => hd c (hsub c hc)
    · simp
    · intro y hy
      have hx : (x == '0') = false := by
        have h := List.head?_dropWhile_not (fun c => c == '0') l
        rw [hdw] at h
        simpa using h
      simp at hy
      subst hy
      intro he
      rw [he] at hx
      simp at hx

theorem digitsToNat_lt (l : List Char) (hd : ∀ c ∈ l, isDigitChar c = true) :
    digitsToNat l < 10 ^ l.length := by
  have aux : ∀ (m : List Char) (a : Nat), (∀ c ∈ m, isDigitChar c = true) →
      m.foldl (fun a c => 10 * a + (c.toNat - 48)) a < (a + 1) * 10 ^ m.length := by
    intro m
    induction m with
    | nil => intro a _; simp
    | cons c t ih =>
      intro a h
      rw [List.foldl_cons]
      have hc := isDigitChar_bounds (h c (by simp))
      calc t.foldl (fun a c => 10 * a + (c.toNat - 48)) (10 * a + (c.toNat - 48))
          < (10 * a + (c.toNat - 48) + 1) * 10 ^ t.length :=
            ih _ (fun y hy => h y (by simp [hy]))
        _ ≤ ((a + 1) * 10) * 10 ^ t.length :=
            Nat.mul_le_mul_right _ (by omega)
        _ = (a + 1) * 10 ^ (c :: t).length := by
            rw [List.length_cons]
            ring
  have := aux l 0 hd
  simpa using this

theorem padStart6_stripLeadingZeros (l : List Char) (hlen : l.length = 6) :
    padStart6 (stripLeadingZeros l) = l := by
  have hsplit := List.takeWhile_append_dropWhile (fun c => c == '0') l
  have hT : l.takeWhile (fun c => c == '0')
      = List.replicate (l.takeWhile (fun c => c == '0')).length '0' := by
    apply List.eq_replicate_of_mem
    intro b hb
    have := List.mem_takeWhile_imp hb
    simpa using this
  unfold stripLeadingZeros
  cases hdw : l.dropWhile (fun c => c == '0') with
  | nil =>
    have hTlen : (l.takeWhile (fun c => c == '0')).length = 6 := by
      have hl2 := congrArg List.length hsplit
      rw [hdw] at hl2
      simp at hl2
      omega
    have hl : l = List.replicate 6 '0' := by
      rw [← hsplit, hdw, List.append_nil, hT, hTlen]
    rw [hl]
    decide
  | cons x t =>
    show padStart6 (x :: t) = l
    unfold padStart6
    have hlen2 : (l.takeWhile (fun c => c == '0')).length + (x :: t).length = 6 := by
      have hl2 := congrArg List.length hsplit
      rw [hdw, List.length_append] at hl2
      omega
    have hmin : 6 - (x :: t).length = (l.takeWhile (fun c => c == '0')).length := by omega
    rw [hmin, ← hT, ← hdw]
    exact hsplit

theorem take_pad_eq (f : List Char) (hf : f.length ≤ 6) :
    (f ++ List.replicate 6 '0').take 6 = f ++ List.replicate (6 - f.length) '0' := by
  rw [List.take_append_eq_append_take, List.take_of_length_le hf, List.take_replicate,
    Nat.min_eq_left (Nat.sub_le 6 f.length)]

/-! ## Helper lemmas: the confirm transaction -/

theorem findDeal_id_eq {db : EscrowDB} {id : String} {deal : Deal}
    (h : findDeal db id = some deal) : deal.id = id := by
  have := List.find?_some h
  exact eq_of_beq this

theorem find?_map_update {deals : List Deal} {id : String} {u : Deal}
    (hu : u.id = id) {deal : Deal}
    (h : deals.find? (fun d => d.id == id) = some deal) :
    (deals.map (fun d => if d.id == id then u else d)).find? (fun d => d.id == id)
      = some u := by
  induction deals with
  | nil => simp at h
  | cons x xs ih =>
    by_cases hx : x.id == id
    · simp only [List.map_cons, if_pos hx]
      rw [List.find?_cons]
      simp [hu]
    · rw [List.find?_cons] at h
      simp only [hx] at h
      simp only [List.map_cons, if_neg hx]
      rw [List.find?_cons]
      simp only [hx]
      exact ih h

theorem findDeal_updateDeal {db : EscrowDB} {id : String} {u deal : Deal}
    (h : findDeal db id = some deal) (hu : u.id = id) :
    findDeal (updateDeal db id u) id = some u :=
  find?_map_update hu h

theorem handleConfirm_ok_elim {chain : String → Option SigStatus} {db : EscrowDB}
    {input : ConfirmInput} {now : Nat} {db' : EscrowDB} {d : Deal}
    (h : handleConfirm chain db input now = .ok (db', d)) :
    ∃ slot deal nextStatus,
      confirmSlot chain input.txSig = .ok slot
      ∧ findDeal db input.dealId = some deal
      ∧ nextStatusFor db deal input = .ok nextStatus
      ∧ d = { deal with
              status := nextStatus
              fundedAt := if nextStatus = DealStatus.FUNDED then some now else deal.fundedAt
              updatedAt := now }
      ∧ db' = updateDeal
          { db with events := db.events ++ [⟨deal.id, input.txSig, slot, input.action⟩] }
          deal.id d := by
  unfold handleConfirm at h
  split at h
  · exact absurd h (by simp)
  · split at h
    · exact absurd h (by simp)
    · rename_i slot hslot
      unfold confirmTx at h
      split at h
      · exact absurd h (by simp)
      · rename_i deal hfind
        split at h
        · exact absurd h (by simp)
        · rename_i w hw
          split at h
          · exact absurd h (by simp)
          · split at h
            · exact absurd h (by simp)
            · rename_i ns hns
              simp only [confirmCommit, Except.ok.injEq, Prod.mk.injEq] at h
              obtain ⟨hdb, hd⟩ := h
              exact ⟨slot, deal, ns, hslot, hfind, hns, hd.symm, by rw [← hdb, ← hd]⟩

theorem nextStatusFor_terminal {db : EscrowDB} {deal : Deal} {input : ConfirmInput}
    {ns : DealStatus}
    (hterm : deal.status = DealStatus.RELEASED ∨ deal.status = DealStatus.REFUNDED)
    (h : nextStatusFor db deal input = .ok ns) : ns = deal.status := by
  unfold nextStatusFor at h
  rcases hterm with ht | ht <;> rw [ht] at h <;>
    (repeat' split at h) <;> simp_all

/-! ## Claim theorems -/

/-- Claim C1: the mock/skip path of `handleConfirm` is NOT guarded by any
non-production mode flag.  The decision depends only on the signature text:
against a chain oracle that knows no transaction at all, a confirm whose
signature starts with 32 `'1'`s still succeeds and moves the deal to FUNDED
(the embedding, like the code, has no mode input at all). -/
theorem confirm_mock_sentinel_bypasses_verification :
    isMockSignature mockSignature = true
    ∧ handleConfirm chainNone dbInitA inputMockFund 7 = .ok (dbInitFunded, dealInitFunded) :=
  ⟨rfl, rfl⟩

/-- Claim C2: the legacy `EscrowService.fund` building call does mutate the
store: when the escrow account is not visible on-chain it marks the deal
FUNDED and appends a mock-signature OnchainEvent instead of building the
transaction. -/
theorem escrowServiceFund_skip_marks_funded :
    escrowServiceFund pdaConst false dbInitA fundInputA 7 = .ok dbInitFunded :=
  rfl

/-- Claim C3: confirm is atomic.  On any error the store is unchanged
(rollback of the single transaction); on success the OnchainEvent append and
the deal update are both present; and each of the listed failure causes
(deal not found, actor wallet mismatch, invalid transition or ticket
problem) makes the transaction fail. -/
theorem confirm_atomicity (chain : String → Option SigStatus) (db : EscrowDB)
    (input : ConfirmInput) (now : Nat) :
    (∀ e, handleConfirm chain db input now = .error e → confirmRun chain db input now = db)
    ∧ (∀ db' d, handleConfirm chain db input now = .ok (db', d) →
        (∃ slot, db'.events = db.events ++ [⟨d.id, input.txSig, slot, input.action⟩])
        ∧ findDeal db' input.dealId = some d)
    ∧ (∀ slot, findDeal db input.dealId = none →
        confirmTx db input now slot = .error "Deal not found")
    ∧ (∀ slot deal w, findDeal db input.dealId = some deal →
        expectedWalletFor deal input = .ok w → w ≠ some input.actorWallet →
        confirmTx db input now slot = .error "Actor wallet mismatch")
    ∧ (∀ slot deal e, findDeal db input.dealId = some deal →
        expectedWalletFor deal input = .ok (some input.actorWallet) →
        nextStatusFor db deal input = .error e →
        confirmTx db input now slot = .error e) := by
  refine ⟨?_, ?_, ?_, ?_, ?_⟩
  · intro e he
    unfold confirmRun
    rw [he]
  · intro db' d hok
    obtain ⟨slot, deal, ns, hslot, hfind, hns, hd, hdb⟩ := handleConfirm_ok_elim hok
    subst hd
    subst hdb
    constructor
    · exact ⟨slot, rfl⟩
    · have hid := findDeal_id_eq hfind
      rw [← hid]
      apply findDeal_updateDeal
      · have : findDeal db deal.id = some deal := by rw [hid]; exact hfind
        exact this
      · rfl
  · intro slot hnone
    simp [confirmTx, hnone]
  · intro slot deal w hfind hw hne
    simp [confirmTx, hfind, hw, hne]
  · intro slot deal e hfind hw hns
    simp [confirmTx, hfind, hw, hns]

/-- Claim C3 witness: a confirm for an unknown deal fails and leaves the
(empty) store unchanged. -/
theorem confirm_atomicity_witness : confirmRun chainOk dbEmpty inputFundSigA 7 = dbEmpty :=
  (confirm_atomicity chainOk dbEmpty inputFundSigA 7).1 "Deal not found" rfl

/-- Claim C4: RELEASED and REFUNDED are absorbing under confirm: for every
action string the stored status is unchanged by the call, and each
fund-moving action (FUND, RELEASE, REFUND, OPEN_DISPUTE, RESOLVE) fails its
precondition check inside the transaction. -/
theorem terminal_states_absorbing (chain : String → Option SigStatus) (db : EscrowDB)
    (input : ConfirmInput) (now : Nat) (deal : Deal)
    (hfind : findDeal db input.dealId = some deal)
    (hterm : deal.status = DealStatus.RELEASED ∨ deal.status = DealStatus.REFUNDED) :
    ((findDeal (confirmRun chain db input now) input.dealId).map Deal.status
      = some deal.status)
    ∧ (input.action = "FUND" ∨ input.action = "RELEASE" ∨ input.action = "REFUND"
        ∨ input.action = "OPEN_DISPUTE" ∨ input.action = "RESOLVE" →
       ∀ slot, ∃ e, confirmTx db input now slot = .error e) := by
  constructor
  · unfold confirmRun
    cases hh : handleConfirm chain db input now with
    | error e => simp [hfind]
    | ok p =>
      obtain ⟨db', d⟩ := p
      obtain ⟨slot, deal2, ns, hslot, hfind2, hns, hd, hdb⟩ := handleConfirm_ok_elim hh
      rw [hfind] at hfind2
      injection hfind2 with h2
      subst h2
      have hns' := nextStatusFor_terminal hterm hns
      subst hd
      subst hdb
      have hid := findDeal_id_eq hfind
      rw [← hid]
      rw [findDeal_updateDeal (u := { deal with
            status := ns
            fundedAt := if ns = DealStatus.FUNDED then some now else deal.fundedAt
            updatedAt := now })
          (show findDeal _ deal.id = some deal from by rw [hid]; exact hfind) rfl]
      simp [hns']
  · intro hact slot
    cases hw : expectedWalletFor deal input with
    | error e => exact ⟨e, by simp [confirmTx, hfind, hw]⟩
    | ok w =>
      by_cases hne : w ≠ some input.actorWallet
      · exact ⟨"Actor wallet mismatch", by simp [confirmTx, hfind, hw, hne]⟩
      · push_neg at hne
        have herr : ∃ e, nextStatusFor db deal input = .error e := by
          rcases hact with h | h | h | h | h
          · exact ⟨"Invalid transition",
              by unfold nextStatusFor; rcases hterm with ht | ht <;> simp [h, ht]⟩
          · exact ⟨"Invalid transition",
              by unfold nextStatusFor; rcases hterm with ht | ht <;> simp [h, ht]⟩
          · exact ⟨"Invalid transition",
              by unfold nextStatusFor; rcases hterm with ht | ht <;> simp [h, ht]⟩
          · exact ⟨"Invalid transition: can only dispute FUNDED deals",
              by unfold nextStatusFor; rcases hterm with ht | ht <;> simp [h, ht]⟩
          · exact ⟨"Invalid transition: can only resolve DISPUTED or FUNDED deals",
              by unfold nextStatusFor; rcases hterm with ht | ht <;> simp [h, ht]⟩
        obtain ⟨e, he⟩ := herr
        exact ⟨e, by simp [confirmTx, hfind, hw, hne, he]⟩

/-- Claim C4 witness: a FUND confirm against a RELEASED deal leaves the
stored status RELEASED, and the transaction itself errors. -/
theorem terminal_states_absorbing_witness :
    ((findDeal (confirmRun chainOk dbReleasedA inputFundSigA 7) dealId0).map Deal.status
      = some DealStatus.RELEASED)
    ∧ (∃ e, confirmTx dbReleasedA inputFundSigA 7 3 = .error e) :=
  have h := terminal_states_absorbing chainOk dbReleasedA inputFundSigA 7 dealReleasedA
    rfl (Or.inl rfl)
  ⟨h.1, h.2 (Or.inl rfl) 3⟩

/-- Claim C5: exact payload lengths under the dealId seed scheme, for any
32-byte digest primitive and any canonical dealId: a successfully built
initiate payload is 42 bytes; fund, release and refund payloads are 24
bytes; open-dispute is 8 bytes; resolve is 9 bytes. -/
theorem instruction_payload_lengths (sha256 : String → List Nat)
    (hsha : ∀ s, (sha256 s).length = 32) (dealId : String)
    (hid : isCanonicalDealId dealId = true)
    (amountUnits : Int) (feeBps : Nat) (disputeAt : Int) (verdictU8 : Nat) :
    (∀ l, initiateInstructionData sha256 PdaScheme.deal_id amountUnits feeBps disputeAt dealId
        = .ok l → l.length = 42)
    ∧ (∃ l, fundInstructionData sha256 dealId = .ok l ∧ l.length = 24)
    ∧ (∃ l, releaseInstructionData sha256 dealId = .ok l ∧ l.length = 24)
    ∧ (∃ l, refundInstructionData sha256 dealId = .ok l ∧ l.length = 24)
    ∧ (openDisputeInstructionData sha256).length = 8
    ∧ (resolveInstructionData sha256 verdictU8).length = 9 := by
  have hdisc : ∀ name, (getInstructionDiscriminator sha256 name).length = 8 := by
    intro name
    simp [getInstructionDiscriminator, List.length_take, hsha]
  have hid' : (stripHyphens dealId).length = 32
      ∧ ∀ c ∈ stripHyphens dealId, (hexNibble? c).isSome = true := by
    simpa [isCanonicalDealId, Bool.and_eq_true, List.all_eq_true] using hid
  have hbytes : dealIdToBytes dealId = .ok (bufferFromHex (stripHyphens dealId)) := by
    simp [dealIdToBytes, hid'.1]
  have hblen : (bufferFromHex (stripHyphens dealId)).length = 16 := by
    rw [bufferFromHex_length_of_hex _ hid'.2, hid'.1]
  refine ⟨?_, ?_, ?_, ?_, hdisc "open_dispute", ?_⟩
  · intro l hl
    simp only [initiateInstructionData, hbytes] at hl
    split at hl
    · exact absurd hl (by simp)
    · rename_i hcond
      simp only [Except.ok.injEq] at hl
      subst hl
      omega
  · exact ⟨getInstructionDiscriminator sha256 "fund" ++ bufferFromHex (stripHyphens dealId),
      by simp [fundInstructionData, hbytes],
      by rw [List.length_append, hdisc, hblen]⟩
  · exact ⟨getInstructionDiscriminator sha256 "release" ++ bufferFromHex (stripHyphens dealId),
      by simp [releaseInstructionData, hbytes],
      by rw [List.length_append, hdisc, hblen]⟩
  · exact ⟨getInstructionDiscriminator sha256 "refund" ++ bufferFromHex (stripHyphens dealId),
      by simp [refundInstructionData, hbytes],
      by rw [List.length_append, hdisc, hblen]⟩
  · simp [resolveInstructionData, List.length_append, hdisc]

/-- Claim C5 witness: the payload lengths at a concrete digest function,
dealId and arguments. -/
theorem instruction_payload_lengths_witness :
    (∀ l, initiateInstructionData sha0 PdaScheme.deal_id 5 50 99 dealId0
        = .ok l → l.length = 42)
    ∧ (∃ l, fundInstructionData sha0 dealId0 = .ok l ∧ l.length = 24)
    ∧ (∃ l, releaseInstructionData sha0 dealId0 = .ok l ∧ l.length = 24)
    ∧ (∃ l, refundInstructionData sha0 dealId0 = .ok l ∧ l.length = 24)
    ∧ (openDisputeInstructionData sha0).length = 8
    ∧ (resolveInstructionData sha0 1).length = 9 :=
  instruction_payload_lengths sha0 (fun _ => rfl) dealId0 (by decide) 5 50 99 1

/-- Claim C6 counterexample: the encoders never fail on out-of-range values —
`writeUIntLE(256, 1)` returns the truncated byte `[0]`, and `writeIntLE(128, 1)`
returns `[128]` (the two's-complement pattern of `-128`), with no
`EncodingOverflow` anywhere in the code. -/
theorem encode_overflow_counterexample :
    writeUIntLE 256 1 = [0] ∧ writeIntLE 128 1 = [128] := by
  constructor <;> decide

/-- Claim C6 amended: `writeUIntLE`/`writeIntLE` are total; the unsigned
encoding is exactly `value mod 2^(8*size)` in little-endian bytes, and the
signed encoder shifts negatives by `2^(8*size)` (two's complement), also
without any overflow failure. -/
theorem encode_truncates_mod (value : Int) (size : Nat) :
    (writeUIntLE value size).length = size
    ∧ leBytesToInt (writeUIntLE value size) = value % 2 ^ (8 * size)
    ∧ writeIntLE value size
        = writeUIntLE (if value < 0 then 2 ^ (8 * size) + value else value) size :=
  ⟨length_writeUIntLE value size, leBytesToInt_writeUIntLE value size,
    writeIntLE_eq_writeUIntLE value size⟩

/-- Claim C7 counterexample: a 32-character non-hex string does NOT fail —
`dealIdToBytes` returns an empty buffer, not a 16-byte one and not a
`MalformedDealId` error. -/
theorem dealIdToBytes_nonhex_counterexample :
    dealIdToBytes "zzzzzzzzzzzzzzzzzzzzzzzzzzzzzzzz" = .ok []
    ∧ ([] : List Nat).length ≠ 16 := by
  constructor
  · rfl
  · decide

/-- Claim C7 amended: `dealIdToBytes` fails exactly when the hyphen-stripped
string is not 32 characters; when it is 32 characters the call returns the
Node hex decoding, which is 16 bytes whenever all 32 characters are valid
hex digits (and shorter otherwise, without an error). -/
theorem dealIdToBytes_length_characterization (id : String) :
    ((∃ e, dealIdToBytes id = .error e) ↔ (stripHyphens id).length ≠ 32)
    ∧ ((stripHyphens id).length = 32 →
        (∀ c ∈ stripHyphens id, (hexNibble? c).isSome = true) →
        dealIdToBytes id = .ok (bufferFromHex (stripHyphens id))
          ∧ (bufferFromHex (stripHyphens id)).length = 16) := by
  constructor
  · unfold dealIdToBytes
    by_cases hlen : (stripHyphens id).length = 32
    · simp [hlen]
    · simp [hlen]
  · intro hlen hhex
    constructor
    · simp [dealIdToBytes, hlen]
    · rw [bufferFromHex_length_of_hex _ hhex, hlen]

/-- Claim C7 witness: on a canonical all-hex dealId the decoding succeeds
with exactly 16 bytes. -/
theorem dealIdToBytes_length_characterization_witness :
    dealIdToBytes dealId0 = .ok (bufferFromHex (stripHyphens dealId0))
      ∧ (bufferFromHex (stripHyphens dealId0)).length = 16 :=
  (dealIdToBytes_length_characterization dealId0).2 (by decide) (by decide)

/-- Claim C8 counterexample: `fundedAt` is not write-once.  A deal already
FUNDED with `fundedAt = 5` is confirmed with action INITIATE (a successful
operation that keeps status FUNDED) — and the stored `fundedAt` is
overwritten with the current time 7. -/
theorem fundedAt_rewrite_counterexample :
    (findDeal dbFundedA dealId0).map Deal.fundedAt = some (some 5)
    ∧ (findDeal (confirmRun chainOk dbFundedA inputInitiateSigA 7) dealId0).map
        Deal.fundedAt = some (some 7)
    ∧ (findDeal (confirmRun chainOk dbFundedA inputInitiateSigA 7) dealId0).map
        Deal.status = some DealStatus.FUNDED :=
  ⟨rfl, rfl, rfl⟩

/-- Claim C8 amended: a successful confirm assigns `fundedAt := now` exactly
when the resulting status is FUNDED (which includes an INITIATE confirm on an
already-FUNDED deal, overwriting the stored value), and preserves the stored
`fundedAt` whenever the resulting status is not FUNDED. -/
theorem fundedAt_assignment_characterization (chain : String → Option SigStatus)
    (db : EscrowDB) (input : ConfirmInput) (now : Nat) (db' : EscrowDB) (d deal : Deal)
    (hfind : findDeal db input.dealId = some deal)
    (hok : handleConfirm chain db input now = .ok (db', d)) :
    (d.status = DealStatus.FUNDED → d.fundedAt = some now)
    ∧ (d.status ≠ DealStatus.FUNDED → d.fundedAt = deal.fundedAt) := by
  obtain ⟨slot, deal2, ns, hslot, hfind2, hns, hd, hdb⟩ := handleConfirm_ok_elim hok
  rw [hfind] at hfind2
  injection hfind2 with h2
  subst h2
  subst hd
  constructor
  · intro hst
    simp only at hst ⊢
    simp [hst]
  · intro hst
    simp only at hst ⊢
    simp [hst]

/-- Claim C8 witness: the characterization applied to the concrete
INITIATE-on-FUNDED confirm. -/
theorem fundedAt_assignment_characterization_witness :
    (dealFundedA'.status = DealStatus.FUNDED → dealFundedA'.fundedAt = some 7)
    ∧ (dealFundedA'.status ≠ DealStatus.FUNDED →
        dealFundedA'.fundedAt = (some 5 : Option Nat)) :=
  fundedAt_assignment_characterization chainOk dbFundedA inputInitiateSigA 7 dbFundedA'
    dealFundedA' dealFundedA rfl rfl

/-- Claim C10: an INITIATE confirm by the stored seller whose signature
passes the check succeeds against a deal in any status, keeps the status
unchanged, still appends an OnchainEvent with the signature, and bumps
`updatedAt` to the call time. -/
theorem confirm_initiate_appends_event (chain : String → Option SigStatus)
    (db : EscrowDB) (input : ConfirmInput) (now : Nat) (deal : Deal) (slot : Nat)
    (hfind : findDeal db input.dealId = some deal)
    (haction : input.action = "INITIATE")
    (hwallet : deal.sellerWallet = some input.actorWallet)
    (hb58 : isBase58Address input.actorWallet = true)
    (hsig : confirmSlot chain input.txSig = .ok slot) :
    ∃ db' d, handleConfirm chain db input now = .ok (db', d)
      ∧ d.status = deal.status
      ∧ d.updatedAt = now
      ∧ db'.events = db.events ++ [⟨deal.id, input.txSig, slot, "INITIATE"⟩]
      ∧ findDeal db' input.dealId = some d := by
  have hw : expectedWalletFor deal input = .ok (some input.actorWallet) := by
    unfold expectedWalletFor
    simp [haction, hwallet]
  have hns : nextStatusFor db deal input = .ok deal.status := by
    unfold nextStatusFor
    simp [haction]
  have htx : confirmTx db input now slot
      = .ok (confirmCommit db deal input now slot deal.status) := by
    simp [confirmTx, hfind, hw, hns]
  have hh : handleConfirm chain db input now
      = .ok (confirmCommit db deal input now slot deal.status) := by
    unfold handleConfirm
    rw [if_neg (by simp [hb58]), hsig]
    exact htx
  refine ⟨_, _, hh, rfl, rfl, ?_, ?_⟩
  · simp [confirmCommit, updateDeal, haction]
  · have hid := findDeal_id_eq hfind
    rw [← hid]
    apply findDeal_updateDeal
    · have : findDeal db deal.id = some deal := by rw [hid]; exact hfind
      exact this
    · rfl

/-- Claim C10 witness: the INITIATE confirm against a RELEASED deal. -/
theorem confirm_initiate_appends_event_witness :
    ∃ db' d, handleConfirm chainOk dbReleasedA inputInitiateSigA 7 = .ok (db', d)
      ∧ d.status = dealReleasedA.status
      ∧ d.updatedAt = 7
      ∧ db'.events = dbReleasedA.events ++ [⟨dealReleasedA.id, "sigA", 3, "INITIATE"⟩]
      ∧ findDeal db' dealId0 = some d :=
  confirm_initiate_appends_event chainOk dbReleasedA inputInitiateSigA 7 dealReleasedA 3
    rfl rfl rfl (by decide) rfl

theorem format_split (W F : Nat) (hF : F < 1000000) :
    (formatUnitsToDecimal (W * 1000000 + F)).data
      = natToDecChars W ++ '.' :: padStart6 (natToDecChars F) := by
  have hdiv : (W * 1000000 + F) / 1000000 = W := by omega
  have hmod : (W * 1000000 + F) % 1000000 = F := by omega
  show natToDecChars ((W * 1000000 + F) / 1000000) ++ '.'
      :: padStart6 (natToDecChars ((W * 1000000 + F) % 1000000)) = _
  rw [hdiv, hmod]

theorem parseAmountToUnits_eq (s : String)
    (h : amountFormatOk (trimChars s.data) = true) :
    parseAmountToUnits s = .ok (
      digitsToNat (((trimChars s.data).splitOn '.').headD []) * 1000000
      + digitsToNat
          (((((trimChars s.data).splitOn '.').drop 1).headD []
            ++ List.replicate 6 '0').take 6)) := by
  simp [parseAmountToUnits, h]

/-- Claim C9 counterexample: the round trip does not return the canonical
form with the *same* integer part — `"01"` matches the 6-decimal format,
parses to `1000000`, but formats back as `"1.000000"`, not `"01.000000"`. -/
theorem amount_roundtrip_counterexample :
    parseAmountToUnits "01" = .ok 1000000
    ∧ specCanonicalAmount (trimChars ("01").data)
        = ['0', '1', '.', '0', '0', '0', '0', '0', '0']
    ∧ (formatUnitsToDecimal 1000000).data
        ≠ ['0', '1', '.', '0', '0', '0', '0', '0', '0'] := by
  refine ⟨by rfl, by rfl, ?_⟩
  have h1 : natToDecChars 1 = ['1'] := by
    rw [natToDecChars_lt10 1 (by norm_num)]
    rfl
  have h0 : natToDecChars 0 = ['0'] := by
    rw [natToDecChars_lt10 0 (by norm_num)]
    rfl
  have heq : (formatUnitsToDecimal 1000000).data
      = ['1', '.', '0', '0', '0', '0', '0', '0'] := by
    have hsp := format_split 1 0 (by norm_num)
    norm_num at hsp
    rw [hsp, h1, h0]
    rfl
  rw [heq]
  decide

/-- Claim C9 amended: for every string matching the 6-decimal format, the
round trip returns the canonical form with the integer part's leading zeros
removed (JS number formatting) and the fractional part zero-padded to
exactly 6 digits; for integer parts without leading zeros this is the
canonical form itself. -/
theorem amount_roundtrip_normalized (s : String)
    (h : amountFormatOk (trimChars s.data) = true) :
    ∃ u, parseAmountToUnits s = .ok u
      ∧ (formatUnitsToDecimal u).data = normalizedCanonicalAmount (trimChars s.data) := by
  have hpar := parseAmountToUnits_eq s h
  rcases hsplit : (trimChars s.data).splitOn '.' with _ | ⟨w, rest⟩
  · exfalso
    unfold amountFormatOk at h
    rw [hsplit] at h
    simp at h
  · rcases rest with _ | ⟨f, rest2⟩
    · -- shape [w] : no fractional part
      have hw : w.isEmpty = false ∧ w.all isDigitChar = true := by
        unfold amountFormatOk at h
        rw [hsplit] at h
        simpa [Bool.and_eq_true] using h
      have hwd : ∀ c ∈ w, isDigitChar c = true := List.all_eq_true.mp hw.2
      rw [hsplit] at hpar
      have hpad : ((([] : List Char) ++ List.replicate 6 '0')).take 6
          = List.replicate 6 '0' := by decide
      have hz : digitsToNat (List.replicate 6 '0') = 0 := by decide
      simp only [List.headD_cons, List.drop_succ_cons, List.drop_zero,
        List.headD_nil, hpad, hz, Nat.add_zero] at hpar
      refine ⟨_, hpar, ?_⟩
      have hF : (0 : Nat) < 1000000 := by norm_num
      have := format_split (digitsToNat w) 0 hF
      rw [Nat.add_zero] at this
      rw [this]
      simp only [normalizedCanonicalAmount, hsplit]
      rw [natToDecChars_strip w hwd]
      have h0 : natToDecChars 0 = ['0'] := by
        rw [natToDecChars_lt10 0 (by norm_num)]
        rfl
      rw [h0]
      rfl
    · rcases rest2 with _ | ⟨x, rest3⟩
      · -- shape [w, f] : whole and fraction
        have hw : w.isEmpty = false ∧ w.all isDigitChar = true
            ∧ f.isEmpty = false ∧ f.length ≤ 6 ∧ f.all isDigitChar = true := by
          unfold amountFormatOk at h
          rw [hsplit] at h
          simpa [Bool.and_eq_true, and_assoc] using h
        have hwd : ∀ c ∈ w, isDigitChar c = true := List.all_eq_true.mp hw.2.1
        have hfd : ∀ c ∈ f, isDigitChar c = true := List.all_eq_true.mp hw.2.2.2.2
        have hf6 : f.length ≤ 6 := hw.2.2.2.1
        rw [hsplit] at hpar
        simp only [List.headD_cons, List.drop_succ_cons, List.drop_zero] at hpar
        rw [take_pad_eq f hf6] at hpar
        set fpad := f ++ List.replicate (6 - f.length) '0' with hfpad
        have hfpadlen : fpad.length = 6 := by
          rw [hfpad, List.length_append, List.length_replicate]
          omega
        have hfpadd : ∀ c ∈ fpad, isDigitChar c = true := by
          intro c hc
          rw [hfpad] at hc
          rcases List.mem_append.mp hc with hcf | hcz
          · exact hfd c hcf
          · rw [List.eq_of_mem_replicate hcz]
            rfl
        have hF : digitsToNat fpad < 1000000 := by
          have := digitsToNat_lt fpad hfpadd
          rw [hfpadlen] at this
          norm_num at this
          exact this
        refine ⟨_, hpar, ?_⟩
        rw [format_split (digitsToNat w) (digitsToNat fpad) hF]
        simp only [normalizedCanonicalAmount, hsplit]
        rw [natToDecChars_strip w hwd, natToDecChars_strip fpad hfpadd,
          padStart6_stripLeadingZeros fpad hfpadlen]
      · -- three or more segments: excluded by the format
        exfalso
        unfold amountFormatOk at h
        rw [hsplit] at h
        simp at h

/-- Claim C9 witness: the amended round trip at `"1.5"`. -/
theorem amount_roundtrip_normalized_witness :
    ∃ u, parseAmountToUnits "1.5" = .ok u
      ∧ (formatUnitsToDecimal u).data = normalizedCanonicalAmount (trimChars ("1.5").data) :=
  amount_roundtrip_normalized "1.5" (by decide)
